import Mathlib

/-
Verification of the go-metacontroller webhook pipeline.

This file gives a shallow embedding of the decode / dispatch / encode pipeline of
the go-metacontroller hook server (package metacontroller together with package
composition) and proves properties of it.  Each definition carries a comment
naming the source function or type it translates.  Collaborator operations that
the source only calls through an interface (the runtime decoder and encoder, the
JSON envelope parse, the user handler) appear as function-valued fields of an
environment record, exactly as wide as the capability the source uses.
-/

set_option maxHeartbeats 1000000

/-! ## Kind identifiers and the canonical wire key -/

/-- Translates k8s.io apimachinery schema.GroupVersionKind: the (group, version,
kind) triple that identifies a resource type on the wire.  All three components
are plain strings. -/
structure GroupVersionKind where
  group : String
  version : String
  kind : String
deriving DecidableEq, Repr

/-- Translates KeyForGVK from the hook server source: the string key for a
GroupVersionKind is "group/version/kind", or "version/kind" when the group is
empty. -/
def KeyForGVK (gvk : GroupVersionKind) : String :=
  if gvk.group = "" then gvk.version ++ "/" ++ gvk.kind
  else gvk.group ++ "/" ++ gvk.version ++ "/" ++ gvk.kind

/-- Splits a list of characters at every slash, keeping empty segments, so that
for example the data of "a/b" maps to the two segments a and b. -/
def splitSlash : List Char → List (List Char)
  | [] => [[]]
  | c :: rest =>
    if c = '/' then [] :: splitSlash rest
    else
      match splitSlash rest with
      | [] => [[c]]
      | h :: t => (c :: h) :: t

/-- Modelled from the spec: the decode direction of the canonical kind key.  The
source has no parse of the key (decoding a wire key is delegated to the Type
Catalog / runtime scheme, which is outside the repository), so this definition
follows the spec wording for the key format: a two-segment key "version/kind"
denotes an identifier with empty group, a three-segment key "group/version/kind"
carries the group explicitly. -/
def parseGVKKey (s : String) : Option GroupVersionKind :=
  match splitSlash s.data with
  | [v, k] => some ⟨"", ⟨v⟩, ⟨k⟩⟩
  | [g, v, k] => some ⟨⟨g⟩, ⟨v⟩, ⟨k⟩⟩
  | _ => none

/-- A string containing no slash character.  Group, version and kind of
well-formed Kubernetes identifiers satisfy this. -/
def noSlash (s : String) : Prop := '/' ∉ s.data

instance (s : String) : Decidable (noSlash s) := by
  unfold noSlash; infer_instance

/-! ## Wire shapes and typed request/response shapes -/

/-- Raw wire bytes (Go json.RawMessage), modelled as a string. -/
abbrev Raw := String

/-- Translates rawCompositeRequest (sync and finalize hooks share it): the parent
blob, the children as a kind-string keyed map of name-keyed maps of raw blobs,
and the finalizing flag.  Go maps carry no order, so the two map layers appear
here as association lists in the order a Go range loop happens to deliver the
entries; an absent children field decodes to the empty list (a nil map). -/
structure RawCompositeRequest where
  Parent : Raw
  Children : List (String × List (String × Raw))
  Finalizing : Bool
deriving DecidableEq, Repr

/-- Translates rawCompositeResponse: encoded status, encoded children keyed by
the canonical kind key, and the finalized flag. -/
structure WireCompositeResponse where
  Status : Raw
  Children : List (String × List Raw)
  Finalized : Bool
deriving DecidableEq, Repr

/-- Translates composition.SyncRequest: typed parent, decoded children bucketed
by GroupVersionKind (association list standing for the Go map, in insertion
order), finalizing flag. -/
structure SyncRequest (P CO : Type) where
  Parent : P
  Children : List (GroupVersionKind × List CO)
  Finalizing : Bool
deriving DecidableEq, Repr

/-- Translates composition.CompositeResponse (the sync hook response): updated
status, desired children bucketed by GroupVersionKind, finalized flag. -/
structure CompositeResponse (P CO : Type) where
  Status : P
  Children : List (GroupVersionKind × List CO)
  Finalized : Bool
deriving DecidableEq, Repr

/-- Translates composition.FinalizeRequest: typed parent and decoded children
bucketed by GroupVersionKind. -/
structure FinalizeRequest (P CO : Type) where
  Parent : P
  Children : List (GroupVersionKind × List CO)
deriving DecidableEq, Repr

/-- Translates composition.FinalizeResponse: updated status, desired children,
finalized flag. -/
structure FinalizeResponse (P CO : Type) where
  Status : P
  Children : List (GroupVersionKind × List CO)
  Finalized : Bool
deriving DecidableEq, Repr

/-- An HTTP error reply produced through writeError (or by the ServeMux method
gate): the status code and the message handed to writeError. -/
structure HookErr where
  code : Nat
  msg : String
deriving DecidableEq, Repr

/-! ## The child set decoder (sync and finalize handlers, child loop) -/

/-- Translates the Go map update observedChildren[gvk] = append(observedChildren[gvk], child)
on an association list: appends to the bucket of an existing key, or adds a new
key at the end (a fresh Go map key; list position stands in for Go map
membership only, never for order). -/
def bucketAppend {CO : Type} (m : List (GroupVersionKind × List CO))
    (k : GroupVersionKind) (v : CO) : List (GroupVersionKind × List CO) :=
  match m with
  | [] => [(k, [v])]
  | (k0, vs) :: rest =>
    if k0 = k then (k0, vs ++ [v]) :: rest else (k0, vs) :: bucketAppend rest k v

/-- Reading a bucket out of the association-list map; a missing key yields the
empty list, as a Go map read of a missing key yields nil. -/
def lookupBucket {CO : Type} (m : List (GroupVersionKind × List CO))
    (k : GroupVersionKind) : List CO :=
  match m with
  | [] => []
  | (k0, vs) :: rest => if k0 = k then vs else lookupBucket rest k

/-- The raw child blobs of a children map in the order the two nested range
loops of the handlers visit them (outer map entries, then inner map entries;
the string keys are ignored by the source loops). -/
def flattenChildren (children : List (String × List (String × Raw))) : List Raw :=
  children.foldr (fun kv acc => kv.2.map Prod.snd ++ acc) []

/-- One iteration of the child decode loop, success side: decode the blob with
the runtime decoder, then assert client.Object.  Returns the decoded
GroupVersionKind and the typed child, or none when either step fails (the
failure is logged and the item skipped). -/
def decodeSuccess {Obj CO : Type} (decode : Raw → Except String (Obj × GroupVersionKind))
    (asClientObject : Obj → Option CO) (rawChild : Raw) : Option (GroupVersionKind × CO) :=
  match decode rawChild with
  | .error _ => none
  | .ok (obj, gvk) =>
    match asClientObject obj with
    | none => none
    | some child => some (gvk, child)

/-- One iteration of the child decode loop of syncHandler.ServeHTTP (and the
identical loop of finalizeHandler.ServeHTTP): a failed item contributes a logged
warning carrying the offending raw bytes and is skipped; a decoded item is
appended to the bucket of its decoded GroupVersionKind. -/
def decodeChildStep {Obj CO : Type} (decode : Raw → Except String (Obj × GroupVersionKind))
    (asClientObject : Obj → Option CO)
    (acc : List (GroupVersionKind × List CO) × List Raw) (rawChild : Raw) :
    List (GroupVersionKind × List CO) × List Raw :=
  match decodeSuccess decode asClientObject rawChild with
  | none => (acc.1, acc.2 ++ [rawChild])
  | some (gvk, child) => (bucketAppend acc.1 gvk child, acc.2)

/-- The whole child decode loop: the observedChildren map and the list of
logged warnings (one per malformed item, carrying its raw bytes). -/
def observedChildrenOf {Obj CO : Type} (decode : Raw → Except String (Obj × GroupVersionKind))
    (asClientObject : Obj → Option CO) (children : List (String × List (String × Raw))) :
    List (GroupVersionKind × List CO) × List Raw :=
  (flattenChildren children).foldl (decodeChildStep decode asClientObject) ([], [])

/-! ## The response child encoder (syncHandler.ServeHTTP, encode loop) -/

/-- Translates the inner encode loop over one bucket: every object is encoded
with the runtime encoder; the first failure aborts the whole request. -/
def encodeChildList {CO : Type} (encodeChild : CO → Except String Raw) :
    List CO → Except String (List Raw)
  | [] => .ok []
  | o :: rest =>
    match encodeChild o with
    | .error e => .error e
    | .ok data =>
      match encodeChildList encodeChild rest with
      | .error e => .error e
      | .ok l => .ok (data :: l)

/-- Translates the Go map assignment desiredChildren[key] = rawList: replaces
the value of an existing key or adds a new one. -/
def mapAssign (m : List (String × List Raw)) (k : String) (v : List Raw) :
    List (String × List Raw) :=
  match m with
  | [] => [(k, v)]
  | (k0, v0) :: rest => if k0 = k then (k0, v) :: rest else (k0, v0) :: mapAssign rest k v

/-- Translates the outer encode loop of syncHandler.ServeHTTP: each desired
bucket is encoded and stored under KeyForGVK of its GroupVersionKind; the first
failing child aborts the whole request. -/
def encodeDesiredChildren {CO : Type} (encodeChild : CO → Except String Raw) :
    List (GroupVersionKind × List CO) → List (String × List Raw) →
    Except String (List (String × List Raw))
  | [], acc => .ok acc
  | (gvk, objs) :: rest, acc =>
    match encodeChildList encodeChild objs with
    | .error e => .error e
    | .ok rawList => encodeDesiredChildren encodeChild rest (mapAssign acc (KeyForGVK gvk) rawList)

/-! ## The sync hook endpoint (syncHandler.ServeHTTP) -/

/-- The collaborators of one sync endpoint, as the source uses them: the JSON
envelope parse of the request body, the runtime decoder (returning the decoded
object and its GroupVersionKind), the two Go type assertions p.(P) and
childObj.(client.Object), the runtime encoder applied to the status and to the
desired children, and the registered user handler.  Context and scheme are
threaded through unchanged in the source and carry no information here. -/
structure SyncEnv (P CO Obj : Type) where
  parseBody : Raw → Except String RawCompositeRequest
  decode : Raw → Except String (Obj × GroupVersionKind)
  asP : Obj → Option P
  asClientObject : Obj → Option CO
  encodeStatus : P → Except String Raw
  encodeChild : CO → Except String Raw
  handler : SyncRequest P CO → Except String (CompositeResponse P CO)

/-- Everything observable about one pass of syncHandler.ServeHTTP: the HTTP
result (error reply or success payload), the child decode warnings logged, and
the list of requests the user handler was invoked with (at most one). -/
structure SyncOutcome (P CO : Type) where
  result : Except HookErr WireCompositeResponse
  warnings : List Raw
  handlerRequests : List (SyncRequest P CO)
deriving Repr

/-- Translates syncHandler.ServeHTTP: parse the envelope (400 on failure),
decode the parent (400), type-assert it (400), decode children with per-item
failure isolation, invoke the handler (500 on error), encode the status (500)
and the desired children (500), and reply with the wire response.  The source
builds the success rawCompositeResponse without setting Finalized, so the flag
on the wire is the zero value false. -/
def syncServeHTTP {P CO Obj : Type} (env : SyncEnv P CO Obj) (body : Raw) :
    SyncOutcome P CO :=
  match env.parseBody body with
  | .error e => ⟨.error ⟨400, "SyncHook: error decoding request: " ++ e⟩, [], []⟩
  | .ok rawReq =>
    match env.decode rawReq.Parent with
    | .error e => ⟨.error ⟨400, "SyncHook: error decoding parent: " ++ e⟩, [], []⟩
    | .ok (p, _) =>
      match env.asP p with
      | none => ⟨.error ⟨400, "SyncHook: type assertion failure: parent"⟩, [], []⟩
      | some parent =>
        let oc := observedChildrenOf env.decode env.asClientObject rawReq.Children
        let req : SyncRequest P CO := ⟨parent, oc.1, rawReq.Finalizing⟩
        match env.handler req with
        | .error e => ⟨.error ⟨500, "SyncHook: handler error: " ++ e⟩, oc.2, [req]⟩
        | .ok resp =>
          match env.encodeStatus resp.Status with
          | .error e => ⟨.error ⟨500, "SyncHook: error encoding status: " ++ e⟩, oc.2, [req]⟩
          | .ok statusBytes =>
            match encodeDesiredChildren env.encodeChild resp.Children [] with
            | .error e => ⟨.error ⟨500, "SyncHook: error encoding child: " ++ e⟩, oc.2, [req]⟩
            | .ok desired => ⟨.ok ⟨statusBytes, desired, false⟩, oc.2, [req]⟩

/-- Translates the method gate of the registration hs.mux.Handle("POST " + path, ...):
the Go 1.22 ServeMux replies 405 Method Not Allowed to a non-POST request on a
registered path without invoking the endpoint; a POST reaches ServeHTTP. -/
def serveSync {P CO Obj : Type} (env : SyncEnv P CO Obj) (method : String) (body : Raw) :
    SyncOutcome P CO :=
  if method = "POST" then syncServeHTTP env body
  else ⟨.error ⟨405, "Method Not Allowed"⟩, [], []⟩

/-- The status code of a sync outcome, none on success. -/
def errCodeOf : Except HookErr WireCompositeResponse → Option Nat
  | .error e => some e.code
  | .ok _ => none

/-! ## The finalize hook endpoint (finalizeHandler.ServeHTTP) -/

/-- A JSON value, as Go encoding/json produces it. -/
inductive GoJSON where
  | str : String → GoJSON
  | boolean : Bool → GoJSON
  | arr : List GoJSON → GoJSON
  | obj : List (String × GoJSON) → GoJSON
  | null : GoJSON

/-- json.Marshal applied to the Children field of composition.FinalizeResponse,
whose Go type is map[schema.GroupVersionKind][]client.Object.  encoding/json
selects the encoder from the static type: a map key type must be of string
kind, of integer kind, or implement encoding.TextMarshaler, and
schema.GroupVersionKind is a plain struct with no MarshalText method, so
newMapEncoder selects the unsupported-type encoder and marshaling fails for
every value of the type, a nil or empty map included. -/
def marshalGVKKeyedMap {CO : Type} (_ : List (GroupVersionKind × List CO)) :
    Except String GoJSON :=
  .error "json: unsupported type: map[schema.GroupVersionKind][]client.Object"

/-- json.NewEncoder(w).Encode(resp) on a composition.FinalizeResponse, as
finalizeHandler.ServeHTTP performs it.  The struct carries no json tags, so the
fields marshal in declaration order under their Go names "Status", "Children",
"Finalized"; the Status field marshals through plain encoding/json (not the
runtime encoder), and the Children field marshals as marshalGVKKeyedMap.  The
first failing field fails the whole marshal. -/
def marshalFinalizeResponse {P CO : Type} (marshalStatus : P → Except String GoJSON)
    (resp : FinalizeResponse P CO) : Except String GoJSON :=
  match marshalStatus resp.Status with
  | .error e => .error e
  | .ok statusJSON =>
    match marshalGVKKeyedMap resp.Children with
    | .error e => .error e
    | .ok childrenJSON =>
      .ok (.obj [("Status", statusJSON), ("Children", childrenJSON),
                 ("Finalized", .boolean resp.Finalized)])

/-- The collaborators of one finalize endpoint, as finalizeHandler uses them. -/
structure FinalizeEnv (P CO Obj : Type) where
  parseBody : Raw → Except String RawCompositeRequest
  decode : Raw → Except String (Obj × GroupVersionKind)
  asP : Obj → Option P
  asClientObject : Obj → Option CO
  marshalStatus : P → Except String GoJSON
  finalizer : FinalizeRequest P CO → Except String (FinalizeResponse P CO)

/-- Everything observable about one pass of finalizeHandler.ServeHTTP.  A
result of .ok none is a 200 reply with an empty body: the response marshal
failed after the handler succeeded, and the source only logs that failure. -/
structure FinalizeOutcome (P CO : Type) where
  result : Except HookErr (Option GoJSON)
  warnings : List Raw
  handlerRequests : List (FinalizeRequest P CO)

/-- Translates finalizeHandler.ServeHTTP: parse the envelope (400), decode and
type-assert the parent (400), run the child decode loop (the source stores its
bucket map in observedChildren and never reads it again: line 257 constructs
the FinalizeRequest from the parent alone, so Children keeps its zero value),
invoke the finalizer (500 on error), and JSON-encode the typed response
directly; a marshal failure at that point is only logged. -/
def finalizeServeHTTP {P CO Obj : Type} (env : FinalizeEnv P CO Obj) (body : Raw) :
    FinalizeOutcome P CO :=
  match env.parseBody body with
  | .error e => ⟨.error ⟨400, "FinalizeHook: error decoding request: " ++ e⟩, [], []⟩
  | .ok rawReq =>
    match env.decode rawReq.Parent with
    | .error e => ⟨.error ⟨400, "FinalizeHook: error decoding parent: " ++ e⟩, [], []⟩
    | .ok (p, _) =>
      match env.asP p with
      | none => ⟨.error ⟨400, "FinalizeHook: type assertion failure for parent"⟩, [], []⟩
      | some parent =>
        let oc := observedChildrenOf env.decode env.asClientObject rawReq.Children
        let req : FinalizeRequest P CO := ⟨parent, []⟩
        match env.finalizer req with
        | .error e =>
          ⟨.error ⟨500, "FinalizeHook: FinalizeHandler failed with error: " ++ e⟩, oc.2, [req]⟩
        | .ok resp =>
          match marshalFinalizeResponse env.marshalStatus resp with
          | .error _ => ⟨.ok none, oc.2, [req]⟩
          | .ok j => ⟨.ok (some j), oc.2, [req]⟩

/-! ## writeError and the hook server lifecycle -/

/-- Translates net/http StatusText for the codes this program can produce
(unknown codes map to the empty string, as in Go). -/
def httpStatusText (code : Nat) : String :=
  if code = 400 then "Bad Request"
  else if code = 404 then "Not Found"
  else if code = 405 then "Method Not Allowed"
  else if code = 500 then "Internal Server Error"
  else ""

/-- The generic category string writeError chooses for a status code. -/
def errCategory (code : Nat) : String :=
  if code = 400 then "bad request"
  else if code = 500 then "internal server error"
  else if code = 405 then "method not allowed"
  else httpStatusText code

/-- Translates writeError: the response body is the generic category string
for the status code, with ": " and the detailed error message appended exactly
when the logger has debug level enabled; http.Error terminates the body with a
newline. -/
def writeErrorBody (code : Nat) (errMsg : String) (debugEnabled : Bool) : String :=
  (if debugEnabled then errCategory code ++ ": " ++ errMsg else errCategory code) ++ "\n"

/-- The underlying net/http server a HookServer owns once started. -/
structure HTTPServer where
  addr : String
deriving DecidableEq, Repr

/-- Translates HookServer, keeping the fields the lifecycle claims touch: the
listen address and the underlying server, which stays nil (none) until
ListenAndServe runs. -/
structure HookServer where
  addr : String
  server : Option HTTPServer
  hooks : List String
deriving DecidableEq, Repr

/-- The functional options NewHookServer accepts, restricted to what they
touch on the model state: Addr sets the address; a hook registration option
adds a route to the mux.  No option touches the server field. -/
inductive HookOption where
  | addrOpt : String → HookOption
  | hookOpt : String → HookOption
deriving DecidableEq, Repr

/-- Applying one functional option. -/
def applyOption (hs : HookServer) : HookOption → HookServer
  | .addrOpt a => { hs with addr := a }
  | .hookOpt path => { hs with hooks := hs.hooks ++ [path] }

/-- Translates NewHookServer: defaults (addr ":8080", no routes, no server),
then the options in order.  The server field is the Go zero value nil. -/
def NewHookServer (opts : List HookOption) : HookServer :=
  opts.foldl applyOption ⟨":8080", none, []⟩

/-- Translates ListenAndServe up to the blocking accept loop: it constructs
the underlying http.Server and stores it on the HookServer. -/
def listenAndServeStart (hs : HookServer) : HookServer :=
  { hs with server := some ⟨hs.addr⟩ }

/-- Everything observable about one Shutdown call: the returned error, the log
lines written, and the delegated net/http Server.Shutdown calls. -/
structure ShutdownOutcome (Ctx : Type) where
  err : Option String
  logs : List String
  delegated : List (HTTPServer × Ctx)
deriving DecidableEq, Repr

/-- Translates HookServer.Shutdown: when a server exists, log and delegate to
net/http Server.Shutdown with the given context; otherwise return nil at
once.  serverShutdown stands for the net/http collaborator. -/
def HookServerShutdown {Ctx : Type} (serverShutdown : HTTPServer → Ctx → Option String)
    (hs : HookServer) (ctx : Ctx) : ShutdownOutcome Ctx :=
  match hs.server with
  | some s => ⟨serverShutdown s ctx, ["Shutting down HookServer at " ++ hs.addr], [(s, ctx)]⟩
  | none => ⟨none, [], []⟩

/-! ## Error condition predicates (the writeError call sites of syncHandler.ServeHTTP) -/

/-- The request-assembly client-error conditions of syncHandler.ServeHTTP: the
JSON envelope fails to parse, or the parent blob fails to decode, or the decoded
parent fails the type assertion to the registered parent type. -/
def syncBadRequestCond {P CO Obj : Type} (env : SyncEnv P CO Obj) (body : Raw) : Prop :=
  (∃ e, env.parseBody body = .error e) ∨
  (∃ rawReq e, env.parseBody body = .ok rawReq ∧ env.decode rawReq.Parent = .error e) ∨
  (∃ rawReq p g, env.parseBody body = .ok rawReq ∧ env.decode rawReq.Parent = .ok (p, g) ∧
    env.asP p = none)

/-- The request req is the fully assembled typed SyncRequest of this body:
the envelope parsed, the parent decoded and type-asserted, and the children
decoded with per-item isolation. -/
def syncAssembledReq {P CO Obj : Type} (env : SyncEnv P CO Obj) (body : Raw)
    (rawReq : RawCompositeRequest) (req : SyncRequest P CO) : Prop :=
  env.parseBody body = .ok rawReq ∧
  ∃ p g parent, env.decode rawReq.Parent = .ok (p, g) ∧ env.asP p = some parent ∧
    req = ⟨parent, (observedChildrenOf env.decode env.asClientObject rawReq.Children).1,
           rawReq.Finalizing⟩

/-- The internal-error conditions of syncHandler.ServeHTTP: after assembly, the
user handler returns an error, or the status fails to encode, or a desired
child fails to encode. -/
def syncServerErrorCond {P CO Obj : Type} (env : SyncEnv P CO Obj) (body : Raw) : Prop :=
  ∃ rawReq req, syncAssembledReq env body rawReq req ∧
    ((∃ e, env.handler req = .error e) ∨
     (∃ resp, env.handler req = .ok resp ∧
       ((∃ e, env.encodeStatus resp.Status = .error e) ∨
        (∃ sb, env.encodeStatus resp.Status = .ok sb ∧
          ∃ e, encodeDesiredChildren env.encodeChild resp.Children [] = .error e))))

/-! ## Concrete instances used to evaluate the pipeline -/

def gvkWidget : GroupVersionKind := ⟨"example.com", "v1alpha1", "Widget"⟩

def gvkDeploy : GroupVersionKind := ⟨"apps", "v1", "Deployment"⟩

def gvkService : GroupVersionKind := ⟨"", "v1", "Service"⟩

/-- A small concrete runtime decoder over string blobs: "praw" decodes to the
Widget parent object, "c1" and "c2" to Deployment children, "s1" to a Service
child; everything else fails to decode. -/
def decodeC : Raw → Except String (String × GroupVersionKind) := fun r =>
  if r = "praw" then .ok ("pobj", gvkWidget)
  else if r = "c1" then .ok ("c1", gvkDeploy)
  else if r = "c2" then .ok ("c2", gvkDeploy)
  else if r = "s1" then .ok ("s1", gvkService)
  else .error "no kind registered"

/-- A parsed sync envelope holding one well-formed, one malformed and another
well-formed Deployment child blob, in that wire order. -/
def rawReqC1 : RawCompositeRequest :=
  ⟨"praw", [("apps/v1/Deployment", [("n1", "c1"), ("n2", "badchild"), ("n3", "c2")])], false⟩

/-- A sync endpoint whose handler echoes the parent and desires no children. -/
def envC1 : SyncEnv String String String :=
  { parseBody := fun _ => .ok rawReqC1
    decode := decodeC
    asP := fun o => if o = "pobj" then some "widget" else none
    asClientObject := fun o => some o
    encodeStatus := fun p => .ok ("enc:" ++ p)
    encodeChild := fun c => .ok ("enc:" ++ c)
    handler := fun req => .ok ⟨req.Parent, [], false⟩ }

/-- A sync endpoint registered for a parent type the decoded parent does not
have: the type assertion rejects every decoded object. -/
def envC4 : SyncEnv String String String :=
  { envC1 with asP := fun _ => none }

/-- A sync endpoint whose handler desires one child the encoder cannot encode. -/
def envC5 : SyncEnv String String String :=
  { envC1 with
    encodeChild := fun c => if c = "ubad" then .error "unencodable object" else .ok ("enc:" ++ c)
    handler := fun req => .ok ⟨req.Parent, [(gvkDeploy, ["ubad"])], false⟩ }

/-- Two well-formed Deployment child blobs as they stand in the wire document,
in wire (text) order. -/
def childrenWireC8 : List (String × List (String × Raw)) :=
  [("apps/v1/Deployment", [("n1", "c1"), ("n2", "c2")])]

/-- The same children map delivered by a Go range loop in the opposite order:
Go map iteration order is unspecified, so this is a legal iteration of the very
same wire document. -/
def childrenIterC8 : List (String × List (String × Raw)) :=
  [("apps/v1/Deployment", [("n2", "c2"), ("n1", "c1")])]

/-- A parsed finalize envelope carrying one well-formed Deployment child. -/
def rawReqF : RawCompositeRequest :=
  ⟨"praw", [("apps/v1/Deployment", [("d1", "c1")])], true⟩

/-- A finalize endpoint whose finalizer echoes the parent and request children
and reports finalized. -/
def envF : FinalizeEnv String String String :=
  { parseBody := fun _ => .ok rawReqF
    decode := decodeC
    asP := fun o => if o = "pobj" then some "widget" else none
    asClientObject := fun o => some o
    marshalStatus := fun p => .ok (.str p)
    finalizer := fun req => .ok ⟨req.Parent, req.Children, true⟩ }

/-! ## Lemmas and theorems -/

theorem string_data_append (a b : String) : (a ++ b).data = a.data ++ b.data := by
  cases a; cases b; rfl

theorem string_mk_data (s : String) : String.mk s.data = s := by
  cases s; rfl

theorem splitSlash_no_slash (a : List Char) (h : '/' ∉ a) : splitSlash a = [a] := by
  induction a with
  | nil => rfl
  | cons c rest ih =>
    have hc : ¬(c = '/') := fun hc => h (hc ▸ List.mem_cons_self c rest)
    have hr : '/' ∉ rest := fun hm => h (List.mem_cons_of_mem _ hm)
    simp [splitSlash, hc, ih hr]

theorem splitSlash_append (a b : List Char) (h : '/' ∉ a) :
    splitSlash (a ++ '/' :: b) = a :: splitSlash b := by
  induction a with
  | nil => simp [splitSlash]
  | cons c rest ih =>
    have hc : ¬(c = '/') := fun hc => h (hc ▸ List.mem_cons_self c rest)
    have hr : '/' ∉ rest := fun hm => h (List.mem_cons_of_mem _ hm)
    simp [splitSlash, hc, ih hr]

theorem keyForGVK_data_short (v k : String) :
    (KeyForGVK ⟨"", v, k⟩).data = v.data ++ '/' :: k.data := by
  show (v ++ "/" ++ k).data = v.data ++ '/' :: k.data
  rw [string_data_append, string_data_append, List.append_assoc]
  rfl

theorem keyForGVK_data_long (g v k : String) (hg : g ≠ "") :
    (KeyForGVK ⟨g, v, k⟩).data = g.data ++ '/' :: (v.data ++ '/' :: k.data) := by
  show (if g = "" then v ++ "/" ++ k else g ++ "/" ++ v ++ "/" ++ k).data = _
  rw [if_neg hg]
  rw [string_data_append, string_data_append, string_data_append, string_data_append]
  simp [List.append_assoc]

theorem parseGVKKey_keyForGVK (gvk : GroupVersionKind)
    (hg : noSlash gvk.group) (hv : noSlash gvk.version) (hk : noSlash gvk.kind) :
    parseGVKKey (KeyForGVK gvk) = some gvk := by
  obtain ⟨g, v, k⟩ := gvk
  by_cases hg0 : g = ""
  · subst hg0
    unfold parseGVKKey
    rw [keyForGVK_data_short, splitSlash_append _ _ hv, splitSlash_no_slash _ hk]
  · unfold parseGVKKey
    rw [keyForGVK_data_long g v k hg0, splitSlash_append _ _ hg,
      splitSlash_append _ _ hv, splitSlash_no_slash _ hk]

theorem lookupBucket_bucketAppend {CO : Type} (m : List (GroupVersionKind × List CO))
    (k j : GroupVersionKind) (v : CO) :
    lookupBucket (bucketAppend m k v) j =
      if k = j then lookupBucket m j ++ [v] else lookupBucket m j := by
  induction m with
  | nil =>
    by_cases h : k = j <;> simp [bucketAppend, lookupBucket, h]
  | cons hd rest ih =>
    obtain ⟨k0, vs⟩ := hd
    by_cases h0 : k0 = k
    · subst h0
      by_cases hj : k0 = j <;> simp [bucketAppend, lookupBucket, hj]
    · by_cases hj : k0 = j
      · subst hj
        have hkj : ¬(k = k0) := fun h => h0 h.symm
        simp [bucketAppend, lookupBucket, h0, hkj]
      · simp [bucketAppend, lookupBucket, h0, hj, ih]

theorem foldl_decodeChildStep_fst {Obj CO : Type}
    (decode : Raw → Except String (Obj × GroupVersionKind))
    (asClientObject : Obj → Option CO) (raws : List Raw) :
    ∀ (m : List (GroupVersionKind × List CO)) (w : List Raw) (j : GroupVersionKind),
    lookupBucket ((raws.foldl (decodeChildStep decode asClientObject) (m, w)).1) j =
      lookupBucket m j ++
        ((raws.filterMap (decodeSuccess decode asClientObject)).filter
          (fun x => x.1 = j)).map Prod.snd := by
  induction raws with
  | nil => intro m w j; simp
  | cons r rest ih =>
    intro m w j
    cases h : decodeSuccess decode asClientObject r with
    | none =>
      simp [decodeChildStep, h, ih]
    | some gc =>
      obtain ⟨g, c⟩ := gc
      by_cases hj : g = j
      · subst hj
        simp [decodeChildStep, h, ih, lookupBucket_bucketAppend]
      · simp [decodeChildStep, h, ih, lookupBucket_bucketAppend, hj]

theorem foldl_decodeChildStep_snd {Obj CO : Type}
    (decode : Raw → Except String (Obj × GroupVersionKind))
    (asClientObject : Obj → Option CO) (raws : List Raw) :
    ∀ (m : List (GroupVersionKind × List CO)) (w : List Raw),
    (raws.foldl (decodeChildStep decode asClientObject) (m, w)).2 =
      w ++ raws.filter (fun r => (decodeSuccess decode asClientObject r).isNone) := by
  induction raws with
  | nil => intro m w; simp
  | cons r rest ih =>
    intro m w
    cases h : decodeSuccess decode asClientObject r with
    | none => simp [decodeChildStep, h, ih]
    | some gc => obtain ⟨g, c⟩ := gc; simp [decodeChildStep, h, ih]

theorem observedChildrenOf_fst {Obj CO : Type}
    (decode : Raw → Except String (Obj × GroupVersionKind))
    (asClientObject : Obj → Option CO) (children : List (String × List (String × Raw)))
    (j : GroupVersionKind) :
    lookupBucket ((observedChildrenOf decode asClientObject children).1) j =
      (((flattenChildren children).filterMap (decodeSuccess decode asClientObject)).filter
        (fun x => x.1 = j)).map Prod.snd := by
  unfold observedChildrenOf
  rw [foldl_decodeChildStep_fst]
  simp [lookupBucket]

theorem observedChildrenOf_snd {Obj CO : Type}
    (decode : Raw → Except String (Obj × GroupVersionKind))
    (asClientObject : Obj → Option CO) (children : List (String × List (String × Raw))) :
    (observedChildrenOf decode asClientObject children).2 =
      (flattenChildren children).filter
        (fun r => (decodeSuccess decode asClientObject r).isNone) := by
  unfold observedChildrenOf
  rw [foldl_decodeChildStep_snd]
  simp

theorem encodeChildList_error_of_mem {CO : Type} (encodeChild : CO → Except String Raw)
    (objs : List CO) (o : CO) (ho : o ∈ objs) (e : String)
    (he : encodeChild o = .error e) :
    ∃ m, encodeChildList encodeChild objs = .error m := by
  induction objs with
  | nil => cases ho
  | cons hd rest ih =>
    cases hhd : encodeChild hd with
    | error m => exact ⟨m, by simp [encodeChildList, hhd]⟩
    | ok data =>
      rcases List.mem_cons.mp ho with h | h
      · subst h; rw [hhd] at he; cases he
      · obtain ⟨m, hm⟩ := ih h
        exact ⟨m, by simp [encodeChildList, hhd, hm]⟩

theorem encodeDesiredChildren_error_of_mem {CO : Type} (encodeChild : CO → Except String Raw)
    (children : List (GroupVersionKind × List CO)) (gvk : GroupVersionKind)
    (objs : List CO) (hmem : (gvk, objs) ∈ children) (o : CO) (ho : o ∈ objs)
    (e : String) (he : encodeChild o = .error e) :
    ∀ acc, ∃ m, encodeDesiredChildren encodeChild children acc = .error m := by
  induction children with
  | nil => cases hmem
  | cons hd rest ih =>
    intro acc
    obtain ⟨g0, os0⟩ := hd
    cases h0 : encodeChildList encodeChild os0 with
    | error m => exact ⟨m, by simp [encodeDesiredChildren, h0]⟩
    | ok rawList =>
      rcases List.mem_cons.mp hmem with h | h
      · have hos : objs = os0 := congrArg Prod.snd h
        obtain ⟨m, hm⟩ := encodeChildList_error_of_mem encodeChild objs o ho e he
        rw [← hos] at h0
        rw [h0] at hm
        cases hm
      · obtain ⟨m, hm⟩ := ih h (mapAssign acc (KeyForGVK g0) rawList)
        exact ⟨m, by simp [encodeDesiredChildren, h0, hm]⟩

/-- C7 counterexample: KeyForGVK is not injective over all Kind Identifiers;
two distinct identifiers, one with group "a" and one with the slash-containing
version "a/b", share the canonical key "a/b/c". -/
theorem kind_key_not_injective :
    KeyForGVK ⟨"a", "b", "c"⟩ = KeyForGVK ⟨"", "a/b", "c"⟩ ∧
    (⟨"a", "b", "c"⟩ : GroupVersionKind) ≠ ⟨"", "a/b", "c"⟩ := by
  refine ⟨by decide, by decide⟩

/-- C7 (amended): for every Kind Identifier whose group, version and kind
contain no slash, KeyForGVK returns "version/kind" when the group is empty and
"group/version/kind" otherwise, parsing the key back yields the original
identifier, and the key is injective over such identifiers. -/
theorem kind_key_roundtrip (gvk : GroupVersionKind)
    (hg : noSlash gvk.group) (hv : noSlash gvk.version) (hk : noSlash gvk.kind) :
    (gvk.group = "" → KeyForGVK gvk = gvk.version ++ "/" ++ gvk.kind) ∧
    (gvk.group ≠ "" → KeyForGVK gvk = gvk.group ++ "/" ++ gvk.version ++ "/" ++ gvk.kind) ∧
    parseGVKKey (KeyForGVK gvk) = some gvk ∧
    (∀ gvk2 : GroupVersionKind, noSlash gvk2.group → noSlash gvk2.version →
      noSlash gvk2.kind → KeyForGVK gvk = KeyForGVK gvk2 → gvk = gvk2) := by
  refine ⟨fun h => by simp [KeyForGVK, h], fun h => by simp [KeyForGVK, h],
    parseGVKKey_keyForGVK gvk hg hv hk, ?_⟩
  intro gvk2 hg2 hv2 hk2 heq
  have h1 := parseGVKKey_keyForGVK gvk hg hv hk
  have h2 := parseGVKKey_keyForGVK gvk2 hg2 hv2 hk2
  rw [heq, h2] at h1
  exact (Option.some.inj h1).symm

/-- C7 witness: the round-trip theorem applied to apps/v1/Deployment. -/
theorem kind_key_roundtrip_witness :
    (noSlash "apps" ∧ noSlash "v1" ∧ noSlash "Deployment") ∧
    parseGVKKey (KeyForGVK ⟨"apps", "v1", "Deployment"⟩) =
      some ⟨"apps", "v1", "Deployment"⟩ :=
  ⟨⟨by decide, by decide, by decide⟩,
   (kind_key_roundtrip ⟨"apps", "v1", "Deployment"⟩ (by decide) (by decide)
     (by decide)).2.2.1⟩

/-- C9 (generic error bodies): with debug disabled, writeError produces a body
depending only on the status code — the fixed category strings "bad request",
"internal server error" and "method not allowed" for 400, 500 and 405 — so two
errors mapped to the same code yield identical bodies and the error detail
never shapes the body; with debug enabled the detail is appended after the
category string. -/
theorem generic_error_bodies :
    (∀ (code : Nat) (e1 e2 : String),
      writeErrorBody code e1 false = writeErrorBody code e2 false) ∧
    (∀ e : String, writeErrorBody 400 e false = "bad request\n") ∧
    (∀ e : String, writeErrorBody 500 e false = "internal server error\n") ∧
    (∀ e : String, writeErrorBody 405 e false = "method not allowed\n") ∧
    (∀ (code : Nat) (e : String),
      writeErrorBody code e true = errCategory code ++ ": " ++ e ++ "\n") := by
  refine ⟨fun code e1 e2 => rfl, fun e => rfl, fun e => rfl,
    fun e => rfl, fun code e => rfl⟩

/-- C10 (shutdown before start): for a HookServer built by NewHookServer with
any options, on which ListenAndServe was never called, Shutdown returns nil for
any context, writes no log line and delegates to no underlying server. -/
theorem shutdown_before_start_noop :
    ∀ (Ctx : Type) (serverShutdown : HTTPServer → Ctx → Option String)
      (opts : List HookOption) (ctx : Ctx),
      HookServerShutdown serverShutdown (NewHookServer opts) ctx = ⟨none, [], []⟩ := by
  intro Ctx serverShutdown opts ctx
  have h : (NewHookServer opts).server = none := by
    unfold NewHookServer
    generalize hinit : (⟨":8080", none, []⟩ : HookServer) = hs0
    have h0 : hs0.server = none := by rw [← hinit]
    clear hinit
    induction opts generalizing hs0 with
    | nil => exact h0
    | cons o rest ih =>
      simp only [List.foldl_cons]
      apply ih
      cases o <;> simp [applyOption, h0]
  unfold HookServerShutdown
  rw [h]

/-- C2 (finalize children dropped, code bug): finalizeHandler.ServeHTTP decodes
the children into observedChildren but constructs the FinalizeRequest from the
parent alone, so every request handed to a finalize handler carries an empty
Children map; concretely, on an envelope with one well-formed Deployment child
the decoded child set is non-empty yet the handler receives no children. -/
theorem finalize_children_dropped :
    (∀ (P CO Obj : Type) (env : FinalizeEnv P CO Obj) (body : Raw),
      ((finalizeServeHTTP env body).handlerRequests.all
        fun req => req.Children.isEmpty) = true) ∧
    (finalizeServeHTTP envF "body").handlerRequests = [⟨"widget", []⟩] ∧
    (observedChildrenOf envF.decode envF.asClientObject rawReqF.Children).1 =
      [(gvkDeploy, ["c1"])] := by
  refine ⟨?_, by decide, by decide⟩
  intro P CO Obj env body
  cases hp : env.parseBody body with
  | error e => simp [finalizeServeHTTP, hp]
  | ok rawReq =>
    cases hd : env.decode rawReq.Parent with
    | error e => simp [finalizeServeHTTP, hp, hd]
    | ok pg =>
      obtain ⟨p, g⟩ := pg
      cases ha : env.asP p with
      | none => simp [finalizeServeHTTP, hp, hd, ha]
      | some parent =>
        cases hh : env.finalizer ⟨parent, []⟩ with
        | error e => simp [finalizeServeHTTP, hp, hd, ha, hh]
        | ok resp =>
          cases hm : marshalFinalizeResponse env.marshalStatus resp with
          | error e => simp [finalizeServeHTTP, hp, hd, ha, hh, hm]
          | ok j => simp [finalizeServeHTTP, hp, hd, ha, hh, hm]

/-- C3 (finalize response never encoded, code bug): finalizeHandler.ServeHTTP
JSON-encodes the typed FinalizeResponse directly, and that marshal fails for
every response (the Children field has a map type keyed by a struct, which
encoding/json rejects), so after a successful finalize handler the reply is a
200 with an empty body: no wire finalized field exists at all.  Concretely, a
finalizer that returns finalized true produces no success payload. -/
theorem finalize_response_never_encoded :
    (∀ (P CO : Type) (marshalStatus : P → Except String GoJSON)
        (resp : FinalizeResponse P CO),
      ∃ e, marshalFinalizeResponse marshalStatus resp = .error e) ∧
    (finalizeServeHTTP envF "body").result = .ok none ∧
    envF.finalizer ⟨"widget", []⟩ = .ok ⟨"widget", [], true⟩ := by
  refine ⟨?_, rfl, rfl⟩
  intro P CO marshalStatus resp
  cases hms : marshalStatus resp.Status with
  | error e => exact ⟨e, by simp [marshalFinalizeResponse, hms]⟩
  | ok j =>
    exact ⟨"json: unsupported type: map[schema.GroupVersionKind][]client.Object",
      by simp [marshalFinalizeResponse, hms, marshalGVKKeyedMap]⟩

/-- C1 (child decode isolation): whenever the envelope parses and the parent
decodes and type-asserts, the sync handler is invoked exactly once with a Child
Set containing exactly the successfully decoded items bucketed by their decoded
GroupVersionKind; every malformed item contributes one logged warning carrying
its raw bytes and is skipped; the request never fails because of malformed
children alone; and an empty or absent children map yields an empty Child Set
while the request still proceeds. -/
theorem child_decode_isolation {P CO Obj : Type} (env : SyncEnv P CO Obj) (body : Raw)
    (rawReq : RawCompositeRequest) (p : Obj) (g : GroupVersionKind) (parent : P)
    (hparse : env.parseBody body = .ok rawReq)
    (hdec : env.decode rawReq.Parent = .ok (p, g))
    (hasP : env.asP p = some parent) :
    (syncServeHTTP env body).handlerRequests =
      [⟨parent, (observedChildrenOf env.decode env.asClientObject rawReq.Children).1,
        rawReq.Finalizing⟩] ∧
    (syncServeHTTP env body).warnings =
      (flattenChildren rawReq.Children).filter
        (fun r => (decodeSuccess env.decode env.asClientObject r).isNone) ∧
    (∀ j, lookupBucket (observedChildrenOf env.decode env.asClientObject rawReq.Children).1 j =
      (((flattenChildren rawReq.Children).filterMap
          (decodeSuccess env.decode env.asClientObject)).filter
        (fun x => x.1 = j)).map Prod.snd) ∧
    (rawReq.Children = [] →
      (observedChildrenOf env.decode env.asClientObject rawReq.Children).1 = []) := by
  have hmain : (syncServeHTTP env body).handlerRequests =
      [⟨parent, (observedChildrenOf env.decode env.asClientObject rawReq.Children).1,
        rawReq.Finalizing⟩] ∧
      (syncServeHTTP env body).warnings =
        (observedChildrenOf env.decode env.asClientObject rawReq.Children).2 := by
    cases hh : env.handler ⟨parent,
        (observedChildrenOf env.decode env.asClientObject rawReq.Children).1,
        rawReq.Finalizing⟩ with
    | error e => simp [syncServeHTTP, hparse, hdec, hasP, hh]
    | ok resp =>
      cases hs : env.encodeStatus resp.Status with
      | error e => simp [syncServeHTTP, hparse, hdec, hasP, hh, hs]
      | ok sb =>
        cases hc : encodeDesiredChildren env.encodeChild resp.Children [] with
        | error e => simp [syncServeHTTP, hparse, hdec, hasP, hh, hs, hc]
        | ok desired => simp [syncServeHTTP, hparse, hdec, hasP, hh, hs, hc]
  refine ⟨hmain.1, ?_, fun j => observedChildrenOf_fst env.decode env.asClientObject _ j, ?_⟩
  · rw [hmain.2, observedChildrenOf_snd]
  · intro hnil
    rw [hnil]
    rfl

/-- C1 witness: the isolation theorem applied to a concrete envelope holding
two well-formed and one malformed Deployment blob. -/
theorem child_decode_isolation_witness :
    (envC1.parseBody "body" = .ok rawReqC1 ∧ envC1.decode rawReqC1.Parent = .ok ("pobj", gvkWidget) ∧
      envC1.asP "pobj" = some "widget") ∧
    ((syncServeHTTP envC1 "body").handlerRequests =
      [⟨"widget", (observedChildrenOf envC1.decode envC1.asClientObject rawReqC1.Children).1,
        rawReqC1.Finalizing⟩] ∧
    (syncServeHTTP envC1 "body").warnings =
      (flattenChildren rawReqC1.Children).filter
        (fun r => (decodeSuccess envC1.decode envC1.asClientObject r).isNone) ∧
    (∀ j, lookupBucket (observedChildrenOf envC1.decode envC1.asClientObject rawReqC1.Children).1 j =
      (((flattenChildren rawReqC1.Children).filterMap
          (decodeSuccess envC1.decode envC1.asClientObject)).filter
        (fun x => x.1 = j)).map Prod.snd) ∧
    (rawReqC1.Children = [] →
      (observedChildrenOf envC1.decode envC1.asClientObject rawReqC1.Children).1 = [])) :=
  ⟨⟨rfl, rfl, rfl⟩,
   child_decode_isolation envC1 "body" rawReqC1 "pobj" gvkWidget "widget" rfl rfl rfl⟩

/-- C4 (type-mismatch rejection): when the parent blob decodes but the decoded
object fails the type assertion to the registered parent type of the endpoint, the
sync handler replies 400 and the user handler is never invoked. -/
theorem type_mismatch_rejection {P CO Obj : Type} (env : SyncEnv P CO Obj) (body : Raw)
    (rawReq : RawCompositeRequest) (p : Obj) (g : GroupVersionKind)
    (hparse : env.parseBody body = .ok rawReq)
    (hdec : env.decode rawReq.Parent = .ok (p, g))
    (hasP : env.asP p = none) :
    (syncServeHTTP env body).result =
      .error ⟨400, "SyncHook: type assertion failure: parent"⟩ ∧
    (syncServeHTTP env body).handlerRequests = [] := by
  constructor <;> simp [syncServeHTTP, hparse, hdec, hasP]

/-- C4 witness: the rejection theorem applied to a concrete endpoint whose
type assertion refuses the decoded Widget parent. -/
theorem type_mismatch_rejection_witness :
    (envC4.parseBody "body" = .ok rawReqC1 ∧ envC4.decode rawReqC1.Parent = .ok ("pobj", gvkWidget) ∧
      envC4.asP "pobj" = none) ∧
    ((syncServeHTTP envC4 "body").result =
      .error ⟨400, "SyncHook: type assertion failure: parent"⟩ ∧
    (syncServeHTTP envC4 "body").handlerRequests = []) :=
  ⟨⟨rfl, rfl, rfl⟩,
   type_mismatch_rejection envC4 "body" rawReqC1 "pobj" gvkWidget rfl rfl rfl⟩

/-- C5 (encode asymmetry): when the handler succeeds but the parent status
fails to encode, or any single desired child fails to encode, the whole sync
request fails with a 500 error and no success payload is produced — unlike
child decode, where a per-item failure is tolerated. -/
theorem encode_failure_fatal {P CO Obj : Type} (env : SyncEnv P CO Obj) (body : Raw)
    (rawReq : RawCompositeRequest) (p : Obj) (g : GroupVersionKind) (parent : P)
    (resp : CompositeResponse P CO)
    (hparse : env.parseBody body = .ok rawReq)
    (hdec : env.decode rawReq.Parent = .ok (p, g))
    (hasP : env.asP p = some parent)
    (hhandler : env.handler ⟨parent,
      (observedChildrenOf env.decode env.asClientObject rawReq.Children).1,
      rawReq.Finalizing⟩ = .ok resp)
    (hfail : (∃ e, env.encodeStatus resp.Status = .error e) ∨
      ∃ gvk objs o, (gvk, objs) ∈ resp.Children ∧ o ∈ objs ∧
        ∃ e, env.encodeChild o = .error e) :
    ∃ m, (syncServeHTTP env body).result = .error ⟨500, m⟩ := by
  rcases hfail with ⟨e, hs⟩ | ⟨gvk, objs, o, hmem, ho, e, he⟩
  · exact ⟨"SyncHook: error encoding status: " ++ e,
      by simp [syncServeHTTP, hparse, hdec, hasP, hhandler, hs]⟩
  · cases hs : env.encodeStatus resp.Status with
    | error e2 =>
      exact ⟨"SyncHook: error encoding status: " ++ e2,
        by simp [syncServeHTTP, hparse, hdec, hasP, hhandler, hs]⟩
    | ok sb =>
      obtain ⟨m, hm⟩ :=
        encodeDesiredChildren_error_of_mem env.encodeChild resp.Children gvk objs hmem o ho e he []
      exact ⟨"SyncHook: error encoding child: " ++ m,
        by simp [syncServeHTTP, hparse, hdec, hasP, hhandler, hs, hm]⟩

/-- C5 witness: the fatal-encode theorem applied to a concrete endpoint whose
handler desires one unencodable child. -/
theorem encode_failure_fatal_witness :
    (envC5.parseBody "body" = .ok rawReqC1 ∧ envC5.decode rawReqC1.Parent = .ok ("pobj", gvkWidget) ∧
      envC5.asP "pobj" = some "widget" ∧
      envC5.handler ⟨"widget",
        (observedChildrenOf envC5.decode envC5.asClientObject rawReqC1.Children).1,
        rawReqC1.Finalizing⟩ = .ok ⟨"widget", [(gvkDeploy, ["ubad"])], false⟩ ∧
      ((gvkDeploy, ["ubad"]) ∈ ([(gvkDeploy, ["ubad"])] :
          List (GroupVersionKind × List String)) ∧
        "ubad" ∈ (["ubad"] : List String) ∧
        envC5.encodeChild "ubad" = .error "unencodable object")) ∧
    ∃ m, (syncServeHTTP envC5 "body").result = .error ⟨500, m⟩ :=
  ⟨⟨rfl, rfl, rfl, rfl, List.mem_singleton.mpr rfl, List.mem_singleton.mpr rfl, rfl⟩,
   encode_failure_fatal envC5 "body" rawReqC1 "pobj" gvkWidget "widget"
     ⟨"widget", [(gvkDeploy, ["ubad"])], false⟩ rfl rfl rfl rfl
     (Or.inr ⟨gvkDeploy, ["ubad"], "ubad", List.mem_singleton.mpr rfl,
       List.mem_singleton.mpr rfl, "unencodable object", rfl⟩)⟩

/-- C8 counterexample: the children arrive as a Go map of maps, whose iteration
order is unspecified, so the order within a kind bucket is not the wire order.
childrenIterC8 is a legal range-loop delivery (a permutation) of the wire
document childrenWireC8, and decoding it yields the Deployment bucket
["c2", "c1"], the reverse of the wire blob order ["c1", "c2"]. -/
theorem bucket_order_not_wire_order :
    (flattenChildren childrenIterC8).Perm (flattenChildren childrenWireC8) ∧
    lookupBucket
      (observedChildrenOf decodeC (fun o => some o) childrenIterC8).1 gvkDeploy =
      ["c2", "c1"] ∧
    ((flattenChildren childrenWireC8).filterMap
        (decodeSuccess decodeC (fun o => some o))).map Prod.snd = ["c1", "c2"] ∧
    (["c2", "c1"] : List String) ≠ ["c1", "c2"] := by
  refine ⟨by decide, by decide, by decide, by decide⟩

/-- C8 (amended): within each kind bucket, the successfully decoded children
appear in the order their blobs are encountered while iterating the children
map — an unspecified Go map iteration order, not necessarily the wire order —
and the user handler, when invoked at all, receives the fully assembled Child
Set of the parsed envelope. -/
theorem bucket_order_amended :
    (∀ (Obj CO : Type) (decode : Raw → Except String (Obj × GroupVersionKind))
        (asClientObject : Obj → Option CO)
        (children : List (String × List (String × Raw))) (j : GroupVersionKind),
      lookupBucket (observedChildrenOf decode asClientObject children).1 j =
        (((flattenChildren children).filterMap (decodeSuccess decode asClientObject)).filter
          (fun x => x.1 = j)).map Prod.snd) ∧
    (∀ (P CO Obj : Type) (env : SyncEnv P CO Obj) (body : Raw),
      (syncServeHTTP env body).handlerRequests = [] ∨
      ∃ rawReq parent, env.parseBody body = .ok rawReq ∧
        (syncServeHTTP env body).handlerRequests =
          [⟨parent, (observedChildrenOf env.decode env.asClientObject rawReq.Children).1,
            rawReq.Finalizing⟩]) := by
  refine ⟨fun Obj CO decode asClientObject children j =>
    observedChildrenOf_fst decode asClientObject children j, ?_⟩
  intro P CO Obj env body
  cases hp : env.parseBody body with
  | error e => exact Or.inl (by simp [syncServeHTTP, hp])
  | ok rawReq =>
    cases hd : env.decode rawReq.Parent with
    | error e => exact Or.inl (by simp [syncServeHTTP, hp, hd])
    | ok pg =>
      obtain ⟨p, g⟩ := pg
      cases ha : env.asP p with
      | none => exact Or.inl (by simp [syncServeHTTP, hp, hd, ha])
      | some parent =>
        refine Or.inr ⟨rawReq, parent, rfl, ?_⟩
        cases hh : env.handler ⟨parent,
            (observedChildrenOf env.decode env.asClientObject rawReq.Children).1,
            rawReq.Finalizing⟩ with
        | error e => simp [syncServeHTTP, hp, hd, ha, hh]
        | ok resp =>
          cases hs : env.encodeStatus resp.Status with
          | error e => simp [syncServeHTTP, hp, hd, ha, hh, hs]
          | ok sb =>
            cases hc : encodeDesiredChildren env.encodeChild resp.Children [] with
            | error e => simp [syncServeHTTP, hp, hd, ha, hh, hs, hc]
            | ok desired => simp [syncServeHTTP, hp, hd, ha, hh, hs, hc]

theorem sync_status_cases {P CO Obj : Type} (env : SyncEnv P CO Obj) (body : Raw) :
    (errCodeOf (syncServeHTTP env body).result = some 400 ↔ syncBadRequestCond env body) ∧
    (errCodeOf (syncServeHTTP env body).result = some 500 ↔ syncServerErrorCond env body) ∧
    errCodeOf (syncServeHTTP env body).result ≠ some 405 := by
  cases hp : env.parseBody body with
  | error e =>
    have hres : syncServeHTTP env body =
        ⟨.error ⟨400, "SyncHook: error decoding request: " ++ e⟩, [], []⟩ := by
      simp [syncServeHTTP, hp]
    rw [hres]
    refine ⟨⟨fun _ => Or.inl ⟨e, hp⟩, fun _ => rfl⟩, ⟨?_, ?_⟩, by simp [errCodeOf]⟩
    · intro h
      exact absurd h (by simp [errCodeOf])
    · rintro ⟨rawReq, req, hasm, -⟩
      obtain ⟨hparse, -⟩ := hasm
      rw [hp] at hparse
      exact Except.noConfusion hparse
  | ok rawReq =>
    cases hd : env.decode rawReq.Parent with
    | error e =>
      have hres : syncServeHTTP env body =
          ⟨.error ⟨400, "SyncHook: error decoding parent: " ++ e⟩, [], []⟩ := by
        simp [syncServeHTTP, hp, hd]
      rw [hres]
      refine ⟨⟨fun _ => Or.inr (Or.inl ⟨rawReq, e, hp, hd⟩), fun _ => rfl⟩, ⟨?_, ?_⟩,
        by simp [errCodeOf]⟩
      · intro h
        exact absurd h (by simp [errCodeOf])
      · rintro ⟨rawReq2, req, hasm, -⟩
        obtain ⟨hparse, p2, g2, parent2, hdec2, -, -⟩ := hasm
        rw [hp] at hparse
        obtain rfl := Except.ok.inj hparse
        rw [hd] at hdec2
        exact Except.noConfusion hdec2
    | ok pg =>
      obtain ⟨p, g⟩ := pg
      cases ha : env.asP p with
      | none =>
        have hres : syncServeHTTP env body =
            ⟨.error ⟨400, "SyncHook: type assertion failure: parent"⟩, [], []⟩ := by
          simp [syncServeHTTP, hp, hd, ha]
        rw [hres]
        refine ⟨⟨fun _ => Or.inr (Or.inr ⟨rawReq, p, g, hp, hd, ha⟩), fun _ => rfl⟩,
          ⟨?_, ?_⟩, by simp [errCodeOf]⟩
        · intro h
          exact absurd h (by simp [errCodeOf])
        · rintro ⟨rawReq2, req, hasm, -⟩
          obtain ⟨hparse, p2, g2, parent2, hdec2, hasP2, -⟩ := hasm
          rw [hp] at hparse
          obtain rfl := Except.ok.inj hparse
          rw [hd] at hdec2
          injection Except.ok.inj hdec2 with h1 h2
          subst h1
          rw [ha] at hasP2
          exact Option.noConfusion hasP2
      | some parent =>
        have hnotbad : ¬syncBadRequestCond env body := by
          rintro (⟨e, hparse⟩ | ⟨rawReq2, e, hparse, hdec2⟩ |
            ⟨rawReq2, p2, g2, hparse, hdec2, hasP2⟩)
          · rw [hp] at hparse
            exact Except.noConfusion hparse
          · rw [hp] at hparse
            obtain rfl := Except.ok.inj hparse
            rw [hd] at hdec2
            exact Except.noConfusion hdec2
          · rw [hp] at hparse
            obtain rfl := Except.ok.inj hparse
            rw [hd] at hdec2
            injection Except.ok.inj hdec2 with h1 h2
            subst h1
            rw [ha] at hasP2
            exact Option.noConfusion hasP2
        have hassembled : syncAssembledReq env body rawReq
            ⟨parent, (observedChildrenOf env.decode env.asClientObject rawReq.Children).1,
             rawReq.Finalizing⟩ := ⟨hp, p, g, parent, hd, ha, rfl⟩
        cases hh : env.handler ⟨parent,
            (observedChildrenOf env.decode env.asClientObject rawReq.Children).1,
            rawReq.Finalizing⟩ with
        | error e =>
          have hres : (syncServeHTTP env body).result =
              .error ⟨500, "SyncHook: handler error: " ++ e⟩ := by
            simp [syncServeHTTP, hp, hd, ha, hh]
          rw [hres]
          refine ⟨⟨?_, ?_⟩, ⟨fun _ => ⟨rawReq, _, hassembled, Or.inl ⟨e, hh⟩⟩, fun _ => rfl⟩,
            by simp [errCodeOf]⟩
          · intro h
            exact absurd h (by simp [errCodeOf])
          · intro h
            exact absurd h hnotbad
        | ok resp =>
          cases hs : env.encodeStatus resp.Status with
          | error e =>
            have hres : (syncServeHTTP env body).result =
                .error ⟨500, "SyncHook: error encoding status: " ++ e⟩ := by
              simp [syncServeHTTP, hp, hd, ha, hh, hs]
            rw [hres]
            refine ⟨⟨?_, ?_⟩,
              ⟨fun _ => ⟨rawReq, _, hassembled, Or.inr ⟨resp, hh, Or.inl ⟨e, hs⟩⟩⟩, fun _ => rfl⟩,
              by simp [errCodeOf]⟩
            · intro h
              exact absurd h (by simp [errCodeOf])
            · intro h
              exact absurd h hnotbad
          | ok sb =>
            cases hc : encodeDesiredChildren env.encodeChild resp.Children [] with
            | error e =>
              have hres : (syncServeHTTP env body).result =
                  .error ⟨500, "SyncHook: error encoding child: " ++ e⟩ := by
                simp [syncServeHTTP, hp, hd, ha, hh, hs, hc]
              rw [hres]
              refine ⟨⟨?_, ?_⟩,
                ⟨fun _ => ⟨rawReq, _, hassembled,
                  Or.inr ⟨resp, hh, Or.inr ⟨sb, hs, e, hc⟩⟩⟩, fun _ => rfl⟩,
                by simp [errCodeOf]⟩
              · intro h
                exact absurd h (by simp [errCodeOf])
              · intro h
                exact absurd h hnotbad
            | ok desired =>
              have hres : (syncServeHTTP env body).result = .ok ⟨sb, desired, false⟩ := by
                simp [syncServeHTTP, hp, hd, ha, hh, hs, hc]
              rw [hres]
              refine ⟨⟨?_, ?_⟩, ⟨?_, ?_⟩, by simp [errCodeOf]⟩
              · intro h
                exact absurd h (by simp [errCodeOf])
              · intro h
                exact absurd h hnotbad
              · intro h
                exact absurd h (by simp [errCodeOf])
              · rintro ⟨rawReq2, req2, hasm, hdisj⟩
                exfalso
                obtain ⟨hparse, p2, g2, parent2, hdec2, hasP2, hreq2⟩ := hasm
                rw [hp] at hparse
                obtain rfl := Except.ok.inj hparse
                rw [hd] at hdec2
                injection Except.ok.inj hdec2 with h1 h2
                subst h1
                rw [ha] at hasP2
                obtain rfl := Option.some.inj hasP2
                subst hreq2
                rcases hdisj with ⟨e, hh2⟩ | ⟨resp2, hh2, hrest⟩
                · rw [hh] at hh2
                  exact Except.noConfusion hh2
                · rw [hh] at hh2
                  obtain rfl := Except.ok.inj hh2
                  rcases hrest with ⟨e, hs2⟩ | ⟨sb2, hs2, e, hc2⟩
                  · rw [hs] at hs2
                    exact Except.noConfusion hs2
                  · rw [hc] at hc2
                    exact Except.noConfusion hc2

/-- C6 (error-to-status-code mapping): for every request to a registered sync
endpoint, the reply is 405 exactly when the method is not POST; 400 exactly
when the JSON envelope is unparseable, the parent undecodable, or the parent
type assertion fails; and 500 exactly when the user handler errs or the status
or a desired child fails to encode. -/
theorem error_status_mapping {P CO Obj : Type} (env : SyncEnv P CO Obj)
    (method : String) (body : Raw) :
    (errCodeOf (serveSync env method body).result = some 405 ↔ method ≠ "POST") ∧
    (errCodeOf (serveSync env method body).result = some 400 ↔
      method = "POST" ∧ syncBadRequestCond env body) ∧
    (errCodeOf (serveSync env method body).result = some 500 ↔
      method = "POST" ∧ syncServerErrorCond env body) := by
  by_cases hm : method = "POST"
  · subst hm
    have h := sync_status_cases env body
    have hserve : serveSync env "POST" body = syncServeHTTP env body := if_pos rfl
    rw [hserve]
    exact ⟨by simp [h.2.2], by simp [h.1], by simp [h.2.1]⟩
  · have hserve : serveSync env method body = ⟨.error ⟨405, "Method Not Allowed"⟩, [], []⟩ :=
      if_neg hm
    rw [hserve]
    refine ⟨by simp [errCodeOf, hm], ⟨?_, ?_⟩, ⟨?_, ?_⟩⟩
    · intro h
      exact absurd h (by simp [errCodeOf])
    · rintro ⟨hPOST, -⟩
      exact absurd hPOST hm
    · intro h
      exact absurd h (by simp [errCodeOf])
    · rintro ⟨hPOST, -⟩
      exact absurd hPOST hm
